import Mathlib

/-!
Verification development for the fastmcp-server-client repository.

This file shallowly embeds the multi-transport MCP client of the
repository (the Result Normalizer in `mcp-client/mcp_clients/utils.py`,
the WebSocket, HTTP-shim and SSE transport clients, and the argument
resolution / planner post-processing in `mcp-client/app.py`) as
executable Lean definitions, and proves or refutes the frozen claims
about them.

JSON values are modelled by the inductive type `Json`; Python dicts are
insertion-ordered association lists with string keys; code that can
raise a Python exception is modelled in the `Except String` monad (the
error string names the exception or carries its message).
-/

/-- JSON values as manipulated by the Python client code. -/
inductive Json where
  | null
  | bool (b : Bool)
  | int (n : Int)
  | str (s : String)
  | arr (items : List Json)
  | obj (fields : List (String × Json))

/-- Association-list lookup, first binding wins (Python dict lookup). -/
def objLookup : List (String × Json) → String → Option Json
  | [], _ => none
  | (k, v) :: rest, key => if k = key then some v else objLookup rest key

/-- `key in d` for a Python dict. -/
def objHasKey (o : List (String × Json)) (key : String) : Bool :=
  (objLookup o key).isSome

/-- `d[key] = v` for a Python dict: updates the existing binding in place
(keeping insertion order) or appends a fresh one. -/
def objSet : List (String × Json) → String → Json → List (String × Json)
  | [], key, v => [(key, v)]
  | (k, w) :: rest, key, v =>
      if k = key then (k, v) :: rest else (k, w) :: objSet rest key v

/-- Python truthiness of a JSON value. -/
def pyTruthy : Json → Bool
  | .null => false
  | .bool b => b
  | .int n => n != 0
  | .str s => s != ""
  | .arr items => !items.isEmpty
  | .obj fields => !fields.isEmpty

/-- `j.get(key)` on a value expected to be a dict; `none` when the key is
absent or the value is not a dict (used only in guarded positions). -/
def jsonGet (j : Json) (key : String) : Option Json :=
  match j with
  | .obj o => objLookup o key
  | _ => none

/-- `j.get(key, dflt)`; raises `AttributeError` when `j` is not a dict,
exactly as Python does. -/
def dictGetAttrD (j : Json) (key : String) (dflt : Json) : Except String Json :=
  match j with
  | .obj o => .ok ((objLookup o key).getD dflt)
  | _ => .error "AttributeError: get"

/-- Whitespace characters removed by Python `str.strip()`. -/
def isPySpace (c : Char) : Bool :=
  c == ' ' || c == '\t' || c == '\n' || c == '\r' || c == '\x0b' || c == '\x0c'

/-- Python `str.strip()`. -/
def pyStrip (s : String) : String :=
  String.mk (((s.toList.dropWhile isPySpace).reverse.dropWhile isPySpace).reverse)

/-- `sep.join(parts)`. -/
def joinSep (sep : String) : List String → String
  | [] => ""
  | [x] => x
  | x :: xs => x ++ sep ++ joinSep sep xs

mutual
/-- Python `repr` of a JSON value (containers use single-quoted strings). -/
def pyRepr : Json → String
  | .null => "None"
  | .bool true => "True"
  | .bool false => "False"
  | .int n => toString n
  | .str s => "\x27" ++ s ++ "\x27"
  | .arr items => "[" ++ joinSep ", " (pyReprList items) ++ "]"
  | .obj fields => "\x7b" ++ joinSep ", " (pyReprObj fields) ++ "\x7d"

def pyReprList : List Json → List String
  | [] => []
  | j :: js => pyRepr j :: pyReprList js

def pyReprObj : List (String × Json) → List String
  | [] => []
  | (k, v) :: kvs => ("\x27" ++ k ++ "\x27: " ++ pyRepr v) :: pyReprObj kvs
end

/-- Python `str()` of a JSON value. -/
def pyStr : Json → String
  | .str s => s
  | j => pyRepr j

/-- Minimal JSON string escaping used by the serializer below. -/
def jsonEscape (s : String) : String :=
  String.mk (s.toList.foldr
    (fun c acc =>
      match c with
      | '\"' => '\\' :: '\"' :: acc
      | '\\' => '\\' :: '\\' :: acc
      | '\n' => '\\' :: 'n' :: acc
      | c => c :: acc) [])

/-- `n` spaces. -/
def spaces : Nat → String
  | 0 => ""
  | n + 1 => " " ++ spaces n

mutual
/-- `json.dumps(j, indent=2)` at nesting level `lvl`. -/
def dumpsVal : Nat → Json → String
  | _, .null => "null"
  | _, .bool true => "true"
  | _, .bool false => "false"
  | _, .int n => toString n
  | _, .str s => "\"" ++ jsonEscape s ++ "\""
  | _, .arr [] => "[]"
  | lvl, .arr (j :: js) =>
      "[\n" ++ joinSep ",\n" (dumpsArr (lvl + 1) (j :: js)) ++ "\n" ++
        spaces (2 * lvl) ++ "]"
  | _, .obj [] => "\x7b\x7d"
  | lvl, .obj (kv :: kvs) =>
      "\x7b\n" ++ joinSep ",\n" (dumpsObj (lvl + 1) (kv :: kvs)) ++ "\n" ++
        spaces (2 * lvl) ++ "\x7d"

def dumpsArr : Nat → List Json → List String
  | _, [] => []
  | lvl, j :: js => (spaces (2 * lvl) ++ dumpsVal lvl j) :: dumpsArr lvl js

def dumpsObj : Nat → List (String × Json) → List String
  | _, [] => []
  | lvl, (k, v) :: kvs =>
      (spaces (2 * lvl) ++ "\"" ++ jsonEscape k ++ "\": " ++ dumpsVal lvl v) ::
        dumpsObj lvl kvs
end

/-- `json.dumps(j, indent=2)`. -/
def json_dumps_indent2 (j : Json) : String := dumpsVal 0 j

/-!
## Result Normalizer — `mcp_clients/utils.py`, `normalize_tool_result`
-/

/-- The `{content, raw}` shape produced by `normalize_tool_result`. -/
structure NormResult where
  content : String
  raw : Json

/-- `isinstance(item, dict) and item.get("type") == "text"`. -/
def isTextFragmentSource (j : Json) : Bool :=
  match j with
  | .obj o =>
      match objLookup o "type" with
      | some (.str t) => t == "text"
      | _ => false
  | _ => false

/-- `item.get("text", "")` for a fragment selected above. -/
def fragmentText (j : Json) : Json :=
  match j with
  | .obj o => (objLookup o "text").getD (.str "")
  | _ => .str ""

/-- The generator `fragment.strip() for fragment in fragments if fragment`:
falsy fragments are dropped, truthy non-string fragments raise
`AttributeError` (no `.strip()`), truthy strings are stripped. -/
def stripFragments : List Json → Except String (List String)
  | [] => .ok []
  | f :: fs =>
      if pyTruthy f then
        match f with
        | .str s => do
            let rest ← stripFragments fs
            .ok (pyStrip s :: rest)
        | _ => .error "AttributeError: strip"
      else stripFragments fs

/-- The tail of the dict branch of `normalize_tool_result`: the `message`
check, then the indented-JSON fallback. -/
def normObjFallback (o : List (String × Json)) : NormResult :=
  match objLookup o "message" with
  | some m => ⟨pyStr m, .obj o⟩
  | none => ⟨json_dumps_indent2 (.obj o), .obj o⟩

/-- `normalize_tool_result` from `mcp_clients/utils.py`. -/
def normalize_tool_result (result : Json) : Except String NormResult :=
  match result with
  | .null => .ok ⟨"", .null⟩
  | .obj o =>
      match objLookup o "content" with
      | some (.arr items) =>
          let fragments := (items.filter isTextFragmentSource).map fragmentText
          if fragments.isEmpty then .ok (normObjFallback o)
          else do
            let parts ← stripFragments fragments
            .ok ⟨joinSep "\n" parts, .obj o⟩
      | some (.str s) => .ok ⟨s, .obj o⟩
      | _ => .ok (normObjFallback o)
  | .arr items => .ok ⟨joinSep "\n" (items.map pyStr), .arr items⟩
  | other => .ok ⟨pyStr other, other⟩

example :
    normalize_tool_result
      (.obj [("content", .arr
        [.obj [("type", .str "text"), ("text", .str "a")],
         .obj [("type", .str "text"), ("text", .str "b")]])]) =
    .ok ⟨"a\nb",
      .obj [("content", .arr
        [.obj [("type", .str "text"), ("text", .str "a")],
         .obj [("type", .str "text"), ("text", .str "b")]])]⟩ := rfl

example : normalize_tool_result .null = .ok ⟨"", .null⟩ := rfl

example :
    normalize_tool_result (.arr [.int 1, .int 2, .int 3]) =
    .ok ⟨"1\n2\n3", .arr [.int 1, .int 2, .int 3]⟩ := rfl

example :
    normalize_tool_result (.obj [("message", .str "x")]) =
    .ok ⟨"x", .obj [("message", .str "x")]⟩ := rfl

/-!
## WebSocket (Socket-RPC) client — `mcp_clients/websocket_client.py`
-/

/-- `data["id"] != request_id` (negated): the inbound message id equals the
outstanding integer request id. -/
def idMatches (idv : Json) (request_id : Int) : Bool :=
  match idv with
  | .int n => n == request_id
  | _ => false

/-- Outcome of the blocking read loop of `_send_rpc_request`. -/
inductive RpcOutcome where
  | ok (result : Json)
  | err (payload : Json)
  | blocked

/-- The read loop of `_send_rpc_request` (lines 147-162): inbound messages
are consumed in order; a message without an `id` is handled as a
notification and skipped, a message whose `id` differs from the
outstanding request id is handled as out-of-order and skipped, a matching
message with an `error` field raises that payload, otherwise its
`result` field (default `{}`) is returned.  An exhausted inbound list
models a read that blocks forever. -/
def rpcReadLoop (request_id : Int) : List (List (String × Json)) → RpcOutcome
  | [] => .blocked
  | msg :: rest =>
      match objLookup msg "id" with
      | none => rpcReadLoop request_id rest
      | some idv =>
          if idMatches idv request_id then
            match objLookup msg "error" with
            | some e => .err e
            | none => .ok ((objLookup msg "result").getD (.obj []))
          else rpcReadLoop request_id rest

/-- Mutable state of `MCPWebSocketClient` (fields set in `__init__`). -/
structure WsClientState where
  ws_open : Bool
  request_id : Int
  connected : Bool
  server_info : Json
  capabilities : Json
  tools_cache : List (String × Json)

/-- State of a freshly constructed client. -/
def initialWsState : WsClientState :=
  ⟨false, 0, false, .obj [], .obj [], []⟩

/-- Exceptions raised by the WebSocket client. -/
inductive WsError where
  | runtimeNotConnected
  | rpcError (payload : Json)
  | blocked

/-- `_send_rpc_request` (lines 133-162): guard on `connected`/`_ws`,
allocate the next request id, send, then run the read loop over the
inbound messages the server delivers. -/
def ws_send_rpc (st : WsClientState) (_method : String)
    (_params : List (String × Json))
    (inbound : List (List (String × Json))) :
    Except WsError (Json × WsClientState) :=
  if !st.connected || !st.ws_open then .error .runtimeNotConnected
  else
    let rid := st.request_id + 1
    let st1 := { st with request_id := rid }
    match rpcReadLoop rid inbound with
    | .blocked => .error .blocked
    | .err e => .error (.rpcError e)
    | .ok r => .ok (r, st1)

/-- The `initialize` parameters built by `connect` (lines 53-57). -/
def initializeParams : List (String × Json) :=
  [("protocolVersion", .str "1.0"),
   ("capabilities", .obj []),
   ("clientInfo", .obj
     [("name", .str "Streamlit MCP Client"), ("version", .str "0.1.0")])]

/-- `connect` (lines 42-61).  `inbound` is the sequence of messages the
server sends after the socket opens; the socket open itself is assumed to
succeed (the claim's hypothesis), modelled by setting `ws_open`. -/
def ws_connect (st : WsClientState)
    (inbound : List (List (String × Json))) : Except WsError WsClientState :=
  if st.connected then .ok st
  else
    let st1 := { st with ws_open := true }
    match ws_send_rpc st1 "initialize" initializeParams inbound with
    | .error e => .error e
    | .ok (result, st2) =>
        .ok { st2 with
              server_info := (jsonGet result "serverInfo").getD (.obj []),
              capabilities := (jsonGet result "capabilities").getD (.obj []),
              connected := true }

/-- Outcome of the underlying `self._ws.close()` call: clean, or one of
the `ConnectionClosed` family that `close` catches. -/
inductive SocketCloseOutcome where
  | clean
  | connectionClosed
  | connectionClosedOk
  | connectionClosedError

/-- `close` (lines 63-71): the underlying socket close is attempted and
any `ConnectionClosed`-family error is swallowed; `_ws` is cleared and
`connected` set to `False` in every case. -/
def ws_close (st : WsClientState) (outcome : SocketCloseOutcome) :
    Except WsError WsClientState :=
  if st.ws_open then
    match outcome with
    | .clean => .ok { st with ws_open := false, connected := false }
    | .connectionClosed => .ok { st with ws_open := false, connected := false }
    | .connectionClosedOk => .ok { st with ws_open := false, connected := false }
    | .connectionClosedError => .ok { st with ws_open := false, connected := false }
  else .ok { st with connected := false }

/-- One page of a `tools/list` response as consumed by
`_discover_via_rpc`: the `tools` entries and the `nextCursor` field
(`none` when the response omits it). -/
structure RpcPage where
  tools : List Json
  nextCursor : Option Json

/-- The pagination loop of `_discover_via_rpc` (lines 92-108), over the
successive page results the server returns.  Accumulates the tools and
the `params` object sent with each request; returns `none` when the
server stops answering (the loop would block). -/
def discoverLoop : List RpcPage → Json → List Json →
    List (List (String × Json)) →
    Option (List Json × List (List (String × Json)))
  | [], _, _, _ => none
  | page :: rest, cursor, acc, reqs =>
      let params := if pyTruthy cursor then [("cursor", cursor)] else []
      let acc := acc ++ page.tools
      let c := (page.nextCursor).getD .null
      if pyTruthy c then discoverLoop rest c acc (reqs ++ [params])
      else some (acc, reqs ++ [params])

/-- `_discover_via_rpc`: starts with no cursor, no tools, no requests. -/
def ws_discover_via_rpc (pages : List RpcPage) :
    Option (List Json × List (List (String × Json))) :=
  discoverLoop pages .null [] []

/-- The default schema inserted by `setdefault("inputSchema", ...)`. -/
def defaultInputSchema : Json :=
  .obj [("type", .str "object"), ("properties", .obj []),
        ("required", .arr [])]

/-- `merged.setdefault(key, v)`. -/
def setdefaultKey (o : List (String × Json)) (key : String) (v : Json) :
    List (String × Json) :=
  if objHasKey o key then o else o ++ [(key, v)]

/-- The tools-map construction shared by `discover_tools` (websocket
lines 79-90): skip entries without a truthy string name, copy, default
the schema, and key by name (last entry wins). -/
def buildToolsMap (tools : List Json) : List (String × Json) :=
  tools.foldl
    (fun m tool =>
      match tool with
      | .obj o =>
          match objLookup o "name" with
          | some (.str s) =>
              if s = "" then m
              else objSet m s (.obj (setdefaultKey o "inputSchema" defaultInputSchema))
          | _ => m
      | _ => m)
    []

/-- `discover_tools` of the WebSocket client (lines 76-90), for an
already-connected client, as a function of the outcome of
`_discover_via_rpc`.  There is no exception handling: a failure of the
underlying listing propagates to the caller. -/
def ws_discover_tools (viaRpc : Except String (List Json)) :
    Except String (List Json) :=
  match viaRpc with
  | .error e => .error e
  | .ok ts => .ok ((buildToolsMap ts).map (fun kv => kv.2))

/-!
## HTTP-shim client — `mcp_clients/http_client.py`
-/

/-- `discover_tools` of the HTTP client (lines 38-56): the whole listing
is wrapped in `try/except`; on failure a warning is printed and the
(empty) tools map is returned. -/
def http_discover_tools (viaShim : Except String (List Json)) :
    Except String (List Json) :=
  match viaShim with
  | .error _ => .ok []
  | .ok ts => .ok ((buildToolsMap ts).map (fun kv => kv.2))

/-- The fixed ordered probe list built by `call_tool` (lines 102-112):
`(endpoint, payload, method)` triples. -/
def http_call_endpoints (tool_name : String) (arguments : Json) :
    List (String × Json × String) :=
  [("call_tool",
      .obj [("tool_name", .str tool_name), ("arguments", arguments)], "POST"),
   ("tools/call",
      .obj [("name", .str tool_name), ("arguments", arguments)], "POST"),
   ("mcp/tools/call",
      .obj [("name", .str tool_name), ("arguments", arguments)], "POST"),
   ("tools/" ++ tool_name, arguments, "POST"),
   ("invoke/" ++ tool_name, arguments, "POST"),
   ("mcp/" ++ tool_name, arguments, "POST")]

/-- The body of one probe iteration (lines 116-118): the HTTP request and
the normalization of its result both run inside the `try` block. -/
def http_probe (send : String → Json → String → Except String Json)
    (p : String × Json × String) : Except String NormResult :=
  match send p.1 p.2.1 p.2.2 with
  | .error e => .error e
  | .ok r => normalize_tool_result r

/-- The probe loop of `call_tool` (lines 114-123): the first probe whose
`try` block completes short-circuits the rest; any failure is recorded in
`last_error`; when every probe fails the final exception carries the last
probe's error. -/
def http_probe_loop (send : String → Json → String → Except String Json)
    (tool_name : String) :
    List (String × Json × String) → Option String → Except String NormResult
  | [], last =>
      .error ("Could not call tool \x27" ++ tool_name ++
        "\x27 via HTTP. Last error: " ++ last.getD "None")
  | p :: rest, _last =>
      match http_probe send p with
      | .ok n => .ok n
      | .error e => http_probe_loop send tool_name rest (some e)

/-- `arguments or {}` (line 100). -/
def argsOrEmpty (arguments : Option Json) : Json :=
  match arguments with
  | some a => if pyTruthy a then a else .obj []
  | none => .obj []

/-- `call_tool` of the HTTP client (lines 98-123): `arguments or {}`,
then the probe loop over the fixed endpoint list. -/
def http_call_tool (send : String → Json → String → Except String Json)
    (tool_name : String) (arguments : Option Json) :
    Except String NormResult :=
  http_probe_loop send tool_name
    (http_call_endpoints tool_name (argsOrEmpty arguments)) none

/-- Mutable state of `MCPHttpClient`. -/
structure HttpClientState where
  connected : Bool
  session_open : Bool
  tools_cache : List (String × Json)

/-- `close` of the HTTP client (lines 31-33): `session.close()` (which
does not raise) and `connected = False`. -/
def http_close (st : HttpClientState) : HttpClientState :=
  { st with session_open := false, connected := false }

/-!
## SSE (streaming) client — `mcp_clients/sse_client.py`
-/

/-- Mutable state of `MCPSSEClient`. -/
structure SseClientState where
  connected : Bool
  ctx_open : Bool
  tools_cache : List (String × Json)

/-- `close` of the SSE client (lines 56-61): early return when not
connected; otherwise the background loop runs `__aexit__` (the managed
session abstraction, modelled as completing), the context is dropped,
`connected` cleared and the tools cache emptied. -/
def sse_close (st : SseClientState) : SseClientState :=
  if !st.connected then st
  else { st with ctx_open := false, connected := false, tools_cache := [] }

/-- The per-tool serialization of `discover_tools` of the SSE client
(lines 82-90): keep tools with a truthy name, defaulting the schema. -/
def sse_serialize (tools : List Json) : List Json :=
  tools.foldr
    (fun tool acc =>
      match tool with
      | .obj o =>
          if pyTruthy ((objLookup o "name").getD .null) then
            .obj (setdefaultKey o "inputSchema" defaultInputSchema) :: acc
          else acc
      | _ => acc)
    []

/-- `discover_tools` of the SSE client (lines 77-90), for a connected
client, as a function of the outcome of `list_tools()` on the underlying
session.  There is no exception handling: a failure propagates. -/
def sse_discover_tools (listOutcome : Except String (List Json)) :
    Except String (List Json) :=
  match listOutcome with
  | .error e => .error e
  | .ok tools => .ok (sse_serialize tools)

/-!
## Agent application — `mcp-client/app.py`
-/

/-- `DEFAULT_FILE_PATH` (app.py line 21). -/
def DEFAULT_FILE_PATH : String := "sample.txt"

/-- `v in (None, "")`: the missing-or-empty test used by
`prepare_tool_arguments`. -/
def isMissingVal (v : Json) : Bool :=
  match v with
  | .null => true
  | .str s => s == ""
  | _ => false

/-- `param not in args or args[param] in (None, "")`. -/
def argMissing (args : List (String × Json)) (param : String) : Bool :=
  match objLookup args param with
  | none => true
  | some v => isMissingVal v

/-- The `required` entries: Python iterates the list; schemas produced by
discovery carry string parameter names (non-strings are modelled as a
`TypeError`, which Python too eventually raises on such entries). -/
def asStrListAux : List Json → Except String (List String)
  | [] => .ok []
  | .str s :: rest => do
      let r ← asStrListAux rest
      .ok (s :: r)
  | _ :: _ => .error "TypeError: required entry is not a string"

def asStrList (j : Json) : Except String (List String) :=
  match j with
  | .arr items => asStrListAux items
  | _ => .error "TypeError: required is not a list"

/-- The `for param in required` loop of `prepare_tool_arguments`
(app.py lines 138-142): fill each missing-or-empty required parameter
from `properties.get(param, {}).get("default")` when that default is not
`None`. -/
def fillRequiredLoop (properties : List (String × Json)) :
    List String → List (String × Json) → Except String (List (String × Json))
  | [], args => .ok args
  | param :: rest, args =>
      if argMissing args param then do
        let dv ← dictGetAttrD ((objLookup properties param).getD (.obj []))
          "default" .null
        match dv with
        | .null => fillRequiredLoop properties rest args
        | v => fillRequiredLoop properties rest (objSet args param v)
      else fillRequiredLoop properties rest args

/-- The `path` rule of `prepare_tool_arguments` (app.py lines 132-136):
fill a schema-declared `path` parameter absent from the arguments with
the schema default or else `DEFAULT_FILE_PATH`. -/
def pathFillStep (properties : List (String × Json)) (path_prop : Json)
    (args : List (String × Json)) : Except String (List (String × Json)) :=
  if objHasKey properties "path" && !objHasKey args "path" then do
    let d ← dictGetAttrD path_prop "default" .null
    let default_path := if pyTruthy d then d else .str DEFAULT_FILE_PATH
    if pyTruthy default_path then Except.ok (objSet args "path" default_path)
    else Except.ok args
  else Except.ok args

/-- The final check of `prepare_tool_arguments` (app.py lines 144-148):
collect every required parameter that is still missing or empty and
raise naming all of them, else return the arguments. -/
def missingCheck (required : List String) (args : List (String × Json)) :
    Except String (List (String × Json)) :=
  let missing := required.filter (fun p => argMissing args p)
  if missing.isEmpty then .ok args
  else .error ("Missing required arguments: " ++ joinSep ", " missing)

/-- `prepare_tool_arguments` (app.py lines 122-148). -/
def prepare_tool_arguments (tool : Option Json)
    (planned_args : List (String × Json)) :
    Except String (List (String × Json)) :=
  let args := planned_args
  match tool with
  | none => .ok args
  | some t =>
      if !pyTruthy t then .ok args
      else do
        let schemaRaw ← dictGetAttrD t "inputSchema" .null
        let schema := if pyTruthy schemaRaw then schemaRaw else .obj []
        let propertiesJ := match schema with
          | .obj o => (objLookup o "properties").getD (.obj [])
          | _ => .obj []
        let requiredJ := match schema with
          | .obj o => (objLookup o "required").getD (.arr [])
          | _ => .arr []
        let path_prop ← dictGetAttrD propertiesJ "path" (.obj [])
        let properties := match propertiesJ with
          | .obj o => o
          | _ => []
        let args ← pathFillStep properties path_prop args
        let required ← asStrList requiredJ
        let args ← fillRequiredLoop properties required args
        missingCheck required args

/-- A well-formed ToolDescriptor (spec data model §3): name, description
and an input schema with a properties mapping and a required list. -/
def mkToolDescriptor (name desc : String) (props : List (String × Json))
    (required : List String) : Json :=
  .obj [("name", .str name), ("description", .str desc),
        ("inputSchema", .obj
          [("type", .str "object"), ("properties", .obj props),
           ("required", .arr (required.map Json.str))])]

example :
    prepare_tool_arguments
      (some (mkToolDescriptor "read_file" ""
        [("path", .obj [("default", .str "sample.txt")])] ["path"])) [] =
    .ok [("path", .str "sample.txt")] := rfl

example :
    prepare_tool_arguments
      (some (mkToolDescriptor "convert" "" [("format", .obj [])] ["format"])) [] =
    .error "Missing required arguments: format" := rfl

/-- Lines 225-229 of `plan_tool_with_llm`: the proposed tool name, kept
only when it is a string whose stripped form is non-empty. -/
def planProposedName (plan_data : List (String × Json)) : Option String :=
  match objLookup plan_data "tool_name" with
  | some (.str s) => if pyStrip s == "" then none else some (pyStrip s)
  | _ => none

/-- Line 231: `{tool.get("name") for tool in tools if tool.get("name")}` —
the truthy names of the catalog (tools are dicts). -/
def availableNames (tools : List (List (String × Json))) : List Json :=
  tools.filterMap (fun t =>
    match objLookup t "name" with
    | some n => if pyTruthy n then some n else none
    | none => none)

/-- `tool_name in available_names` for a string tool name. -/
def nameInSet (nm : String) (names : List Json) : Bool :=
  names.any (fun v =>
    match v with
    | .str s => s == nm
    | _ => false)

/-- `plan_data.setdefault("reasoning", "")`. -/
def setdefaultReasoning (pd : List (String × Json)) : List (String × Json) :=
  if objHasKey pd "reasoning" then pd else pd ++ [("reasoning", .str "")]

/-- `plan_data["reasoning"] += note` after the `setdefault`; a non-string
existing value raises `TypeError`. -/
def appendReasoning (pd : List (String × Json)) (note : String) :
    Except String (List (String × Json)) :=
  let pd := setdefaultReasoning pd
  match objLookup pd "reasoning" with
  | some (.str r) => .ok (objSet pd "reasoning" (.str (r ++ note)))
  | _ => .error "TypeError: reasoning is not a string"

/-- Note appended when the proposal is not in the catalog (line 234). -/
def noteToolNotAvailable (t : String) : String :=
  " (tool \x27" ++ t ++ "\x27 not available)"

/-- Note appended when the required tool is not in the catalog (line 240). -/
def noteRequiredNotAvailable (r : String) : String :=
  " (required tool \x27" ++ r ++ "\x27 not available)"

/-- Note appended when a different proposal is overridden (line 246). -/
def noteOverriding (t r : String) : String :=
  " (overriding \x27" ++ t ++ "\x27 with required \x27" ++ r ++ "\x27)"

/-- Note appended when no proposal survived and the required tool is
used (line 248). -/
def noteUsingRequired (r : String) : String :=
  " (using required tool \x27" ++ r ++ "\x27)"

/-- Lines 225-235 of `plan_tool_with_llm`: a proposed name that is not
in the catalog is discarded with an annotation. -/
def planStage1 (plan_data : List (String × Json)) (names : List Json) :
    Except String (List (String × Json) × Option String) :=
  match planProposedName plan_data with
  | some t =>
      if nameInSet t names then .ok (plan_data, some t)
      else do
        let pd ← appendReasoning plan_data (noteToolNotAvailable t)
        .ok (pd, (none : Option String))
  | none => .ok (plan_data, (none : Option String))

/-- Lines 237-249 of `plan_tool_with_llm`: the required-tool override. -/
def planStage2 (pd : List (String × Json)) (tn1 : Option String)
    (names : List Json) (required_tool_name : Option String) :
    Except String (List (String × Json) × Option String) :=
  match required_tool_name with
  | none => .ok (pd, tn1)
  | some r =>
      if r == "" then .ok (pd, tn1)
      else if !nameInSet r names then do
        let pd2 ← appendReasoning pd (noteRequiredNotAvailable r)
        .ok (pd2, (none : Option String))
      else
        match tn1 with
        | some t =>
            if t == r then .ok (pd, some r)
            else do
              let pd2 ← appendReasoning pd (noteOverriding t r)
              .ok (pd2, some r)
        | none => do
            let pd2 ← appendReasoning pd (noteUsingRequired r)
            .ok (pd2, some r)

/-- Lines 251-260 of `plan_tool_with_llm`: coerce `arguments` to a
mapping, re-read the reasoning, and write the three keys back. -/
def planFinalize (pd : List (String × Json)) (tn2 : Option String) :
    List (String × Json) :=
  let argumentsJ := match objLookup pd "arguments" with
    | some (.obj o) => Json.obj o
    | _ => Json.obj []
  let reasoningJ := (objLookup pd "reasoning").getD (.str "")
  let pd := objSet pd "tool_name"
    (match tn2 with | some t => .str t | none => .null)
  let pd := objSet pd "arguments" argumentsJ
  objSet pd "reasoning" reasoningJ

/-- The post-processing of `plan_tool_with_llm` (app.py lines 225-260):
validation of the proposed name against the catalog, the required-tool
override, coercion of `arguments`, and writing the final keys back. -/
def plan_post (plan_data : List (String × Json))
    (tools : List (List (String × Json))) (required_tool_name : Option String) :
    Except String (List (String × Json)) := do
  let names := availableNames tools
  let (pd, tn1) ← planStage1 plan_data names
  let (pd2, tn2) ← planStage2 pd tn1 names required_tool_name
  .ok (planFinalize pd2 tn2)

/-!
## Helper lemmas
-/

/-- The message/serialization fallback always carries the original dict
as `raw`. -/
theorem normObjFallback_raw (o : List (String × Json)) :
    (normObjFallback o).raw = .obj o := by
  unfold normObjFallback
  split <;> rfl

/-- Every successful normalization preserves the input as `raw`. -/
theorem normalize_raw_preserved (r : Json) (out : NormResult)
    (h : normalize_tool_result r = .ok out) : out.raw = r := by
  cases r with
  | null =>
      simp only [normalize_tool_result, Except.ok.injEq] at h
      rw [← h]
  | bool b =>
      simp only [normalize_tool_result, Except.ok.injEq] at h
      rw [← h]
  | int n =>
      simp only [normalize_tool_result, Except.ok.injEq] at h
      rw [← h]
  | str s =>
      simp only [normalize_tool_result, Except.ok.injEq] at h
      rw [← h]
  | arr items =>
      simp only [normalize_tool_result, Except.ok.injEq] at h
      rw [← h]
  | obj o =>
      simp only [normalize_tool_result] at h
      rcases hc : objLookup o "content" with _ | cv
      · rw [hc] at h
        simp only [Except.ok.injEq] at h
        rw [← h]
        exact normObjFallback_raw o
      · rw [hc] at h
        cases cv with
        | arr items =>
            simp only at h
            by_cases he : ((items.filter isTextFragmentSource).map fragmentText).isEmpty
            · rw [if_pos he] at h
              simp only [Except.ok.injEq] at h
              rw [← h]
              exact normObjFallback_raw o
            · rw [if_neg he] at h
              rcases hs : stripFragments ((items.filter isTextFragmentSource).map fragmentText)
                with e | parts
              · rw [hs] at h
                simp [Bind.bind, Except.bind] at h
              · rw [hs] at h
                simp only [Bind.bind, Except.bind, Except.ok.injEq] at h
                rw [← h]
        | str s =>
            simp only [Except.ok.injEq] at h
            rw [← h]
        | null =>
            simp only [Except.ok.injEq] at h
            rw [← h]
            exact normObjFallback_raw o
        | bool b =>
            simp only [Except.ok.injEq] at h
            rw [← h]
            exact normObjFallback_raw o
        | int n =>
            simp only [Except.ok.injEq] at h
            rw [← h]
            exact normObjFallback_raw o
        | obj o2 =>
            simp only [Except.ok.injEq] at h
            rw [← h]
            exact normObjFallback_raw o

/-!
## Claims
-/

/-- C1: the claim fails on the code.  `connect()` calls
`_send_rpc_request("initialize", ...)` while `self.connected` is still
`False`, and `_send_rpc_request` immediately raises
`RuntimeError("MCP WebSocket client is not connected")` in that state:
for every freshly constructed client (connected = false), regardless of
the messages the server would answer with, `connect()` raises instead of
performing the handshake. -/
theorem c1_ws_connect_always_raises_when_fresh (st : WsClientState)
    (inbound : List (List (String × Json))) (h : st.connected = false) :
    ws_connect st inbound = .error .runtimeNotConnected := by
  simp [ws_connect, ws_send_rpc, h]

/-- C1 witness: even a fresh client whose socket opens and whose server
answers the `initialize` request with a well-formed response raises. -/
theorem c1_witness :
    ws_connect initialWsState
      [[("jsonrpc", .str "2.0"), ("id", .int 1),
        ("result", .obj
          [("serverInfo", .obj [("name", .str "srv")]),
           ("capabilities", .obj [])])]] =
    .error .runtimeNotConnected :=
  c1_ws_connect_always_raises_when_fresh initialWsState _ rfl

/-- C2 counterexample: the claim quantifies over all three transport
clients, but the WebSocket client's `discover_tools` has no exception
handling: when the underlying `tools/list` traffic raises, the failure
propagates to the caller instead of yielding an empty catalog. -/
theorem c2_counterexample_ws_discover_propagates :
    ws_discover_tools (.error "boom") = .error "boom" ∧
    ws_discover_tools (.error "boom") ≠ .ok [] := by
  constructor
  · rfl
  · simp [ws_discover_tools]

/-- C2 amended: only the HTTP-shim client degrades a discovery failure
to an empty catalog; the WebSocket and SSE clients propagate the
failure to their caller. -/
theorem c2_amended_discovery_failure_semantics :
    ∀ e : String,
      http_discover_tools (.error e) = .ok [] ∧
      ws_discover_tools (.error e) = .error e ∧
      sse_discover_tools (.error e) = .error e :=
  fun _ => ⟨rfl, rfl, rfl⟩

/-- C3: during one request/response cycle with outstanding id `rid`,
every inbound message without an `id` is skipped as a notification and
every message with a non-matching `id` is skipped as out-of-order,
without raising; the loop returns the `result` field of the first
message with the matching id, unless that message carries an `error`
field, in which case the error payload is raised. -/
theorem c3_rpc_read_loop_dispatch (rid : Int)
    (pre post : List (List (String × Json))) (m : List (String × Json))
    (hpre : ∀ d ∈ pre, objLookup d "id" = none ∨
      ∃ idv, objLookup d "id" = some idv ∧ idMatches idv rid = false)
    (hm : ∃ idv, objLookup m "id" = some idv ∧ idMatches idv rid = true) :
    rpcReadLoop rid (pre ++ m :: post) =
      (match objLookup m "error" with
       | some e => RpcOutcome.err e
       | none => RpcOutcome.ok ((objLookup m "result").getD (.obj []))) := by
  induction pre with
  | nil =>
      obtain ⟨idv, hid, hmatch⟩ := hm
      simp [rpcReadLoop, hid, hmatch]
  | cons d ds ih =>
      have hds : ∀ x ∈ ds, objLookup x "id" = none ∨
          ∃ idv, objLookup x "id" = some idv ∧ idMatches idv rid = false :=
        fun x hx => hpre x (by simp [hx])
      rcases hpre d (by simp) with hnone | ⟨idv, hid, hfalse⟩
      · simpa [rpcReadLoop, hnone] using ih hds
      · simpa [rpcReadLoop, hid, hfalse] using ih hds

/-- C3 witness: with outstanding id 7, a notification and an
out-of-order response (id 3) are skipped and the matching response's
`result` is returned. -/
theorem c3_witness :
    rpcReadLoop 7
      [[("method", .str "notifications/progress")],
       [("id", .int 3), ("result", .str "stale")],
       [("id", .int 7), ("result", .str "fresh")]] =
    .ok (.str "fresh") :=
  c3_rpc_read_loop_dispatch 7
    [[("method", .str "notifications/progress")],
     [("id", .int 3), ("result", .str "stale")]]
    [] [("id", .int 7), ("result", .str "fresh")]
    (by
      intro d hd
      rcases List.mem_cons.mp hd with h | hd2
      · subst h; left; rfl
      · rcases List.mem_cons.mp hd2 with h | hd3
        · subst h; right; exact ⟨.int 3, rfl, rfl⟩
        · cases hd3)
    ⟨.int 7, rfl, rfl⟩

/-- C6: the Result Normalizer meets the four specified input/output
pairs, and every successful normalization returns the input unchanged
in the `raw` field. -/
theorem c6_normalizer_cases_and_raw :
    normalize_tool_result
      (.obj [("content", .arr
        [.obj [("type", .str "text"), ("text", .str "a")],
         .obj [("type", .str "text"), ("text", .str "b")]])]) =
      .ok ⟨"a\nb",
        .obj [("content", .arr
          [.obj [("type", .str "text"), ("text", .str "a")],
           .obj [("type", .str "text"), ("text", .str "b")]])]⟩ ∧
    normalize_tool_result .null = .ok ⟨"", .null⟩ ∧
    normalize_tool_result (.arr [.int 1, .int 2, .int 3]) =
      .ok ⟨"1\n2\n3", .arr [.int 1, .int 2, .int 3]⟩ ∧
    normalize_tool_result (.obj [("message", .str "x")]) =
      .ok ⟨"x", .obj [("message", .str "x")]⟩ ∧
    ∀ (r : Json) (out : NormResult),
      normalize_tool_result r = .ok out → out.raw = r :=
  ⟨rfl, rfl, rfl, rfl, normalize_raw_preserved⟩

/-- C6 witness: the raw-preservation conjunct applied at a concrete
input. -/
theorem c6_witness :
    NormResult.raw ⟨"x", .obj [("message", .str "x")]⟩ =
      .obj [("message", .str "x")] :=
  c6_normalizer_cases_and_raw.2.2.2.2 (.obj [("message", .str "x")])
    ⟨"x", .obj [("message", .str "x")]⟩ rfl

/-- C9: for each of the three transport clients, calling `close()` twice
in succession never raises and leaves `connected = false` (the WebSocket
client swallows the `ConnectionClosed` family raised by the underlying
socket close; the HTTP and SSE teardowns are modelled as the pure state
transitions of the source). -/
theorem c9_close_idempotent :
    ∀ (ws : WsClientState) (o1 o2 : SocketCloseOutcome)
      (h : HttpClientState) (s : SseClientState),
      (∃ s1 s2, ws_close ws o1 = .ok s1 ∧ ws_close s1 o2 = .ok s2 ∧
        s2.connected = false) ∧
      (http_close (http_close h)).connected = false ∧
      (sse_close (sse_close s)).connected = false := by
  intro ws o1 o2 h s
  refine ⟨?_, rfl, ?_⟩
  · by_cases hw : ws.ws_open
    · refine ⟨{ ws with ws_open := false, connected := false },
        { ws with ws_open := false, connected := false }, ?_, ?_, rfl⟩
      · cases o1 <;> simp [ws_close, hw]
      · cases o2 <;> simp [ws_close]
    · refine ⟨{ ws with connected := false },
        { ws with connected := false }, ?_, ?_, rfl⟩
      · cases o1 <;> simp [ws_close, hw]
      · cases o2 <;> simp [ws_close, hw]
  · by_cases hc : s.connected <;> simp [sse_close, hc]

/-- The params object sent by one pagination request. -/
theorem discoverLoop_split (good : List RpcPage) (stop : RpcPage)
    (rest : List RpcPage) (c : Json) (acc : List Json)
    (reqs : List (List (String × Json)))
    (hgood : ∀ g ∈ good, pyTruthy ((g.nextCursor).getD .null) = true)
    (hstop : pyTruthy ((stop.nextCursor).getD .null) = false) :
    discoverLoop (good ++ stop :: rest) c acc reqs =
      some (acc ++ (good.map RpcPage.tools).flatten ++ stop.tools,
        reqs ++ [if pyTruthy c then [("cursor", c)] else []] ++
          good.map (fun g => [("cursor", (g.nextCursor).getD .null)])) := by
  induction good generalizing c acc reqs with
  | nil =>
      simp [discoverLoop, hstop]
  | cons g good' ih =>
      have hg := hgood g (by simp)
      have hgood' : ∀ x ∈ good', pyTruthy ((x.nextCursor).getD .null) = true :=
        fun x hx => hgood x (by simp [hx])
      simp only [List.cons_append, discoverLoop, hg, if_true]
      simp only [List.append_eq]
      rw [ih ((g.nextCursor).getD .null) (acc ++ g.tools)
        (reqs ++ [if pyTruthy c then [("cursor", c)] else []]) hgood']
      simp [hg, List.append_assoc]

/-- C4 counterexample: the pagination loop does not terminate exactly
when a response omits the cursor.  A first response carrying
`nextCursor: ""` (present but falsy) already terminates the loop: only
one request is issued and only `t1` is returned, although the consumed
response did not omit the cursor (a second page would have followed
under the claim's reading). -/
theorem c4_counterexample :
    ws_discover_via_rpc
      [⟨[.str "t1"], some (.str "")⟩, ⟨[.str "t2"], none⟩] =
      some ([.str "t1"], [[]]) ∧
    (RpcPage.nextCursor ⟨[.str "t1"], some (.str "")⟩).isSome = true :=
  ⟨rfl, rfl⟩

/-- C4 amended: given discovery responses `{tools:[t1], nextCursor:"c2"}`
then `{tools:[t2]}`, `discoverTools()` issues exactly two requests (the
second carrying cursor `"c2"`) and returns `[t1, t2]`; in general the
pagination loop terminates exactly when a response's `nextCursor` is
absent or falsy (e.g. the empty string), accumulating pages in order and
issuing one request per consumed response, each request after the first
carrying the previous response's cursor. -/
theorem c4_amended_pagination (t1 t2 : Json) :
    ws_discover_via_rpc
      [⟨[t1], some (.str "c2")⟩, ⟨[t2], none⟩] =
      some ([t1, t2], [[], [("cursor", .str "c2")]]) ∧
    ∀ (good : List RpcPage) (stop : RpcPage) (rest : List RpcPage),
      (∀ g ∈ good, pyTruthy ((g.nextCursor).getD .null) = true) →
      pyTruthy ((stop.nextCursor).getD .null) = false →
      ws_discover_via_rpc (good ++ stop :: rest) =
        some ((good.map RpcPage.tools).flatten ++ stop.tools,
          [[]] ++ good.map (fun g => [("cursor", (g.nextCursor).getD .null)])) := by
  constructor
  · rfl
  · intro good stop rest hgood hstop
    unfold ws_discover_via_rpc
    rw [discoverLoop_split good stop rest .null [] [] hgood hstop]
    simp [pyTruthy]

/-- C4 witness: the amended general statement applied to the two-page
scenario. -/
theorem c4_witness :
    ws_discover_via_rpc
      [⟨[.str "t1"], some (.str "c2")⟩, ⟨[.str "t2"], none⟩] =
      some ((([⟨[.str "t1"], some (.str "c2")⟩] :
            List RpcPage).map RpcPage.tools).flatten ++ [.str "t2"],
        [[]] ++ ([⟨[.str "t1"], some (.str "c2")⟩] :
            List RpcPage).map (fun g => [("cursor", (g.nextCursor).getD .null)])) :=
  (c4_amended_pagination (.str "t1") (.str "t2")).2
    [⟨[.str "t1"], some (.str "c2")⟩] ⟨[.str "t2"], none⟩ []
    (by
      intro g hg
      rw [List.mem_singleton.mp hg]
      rfl)
    rfl

/-- C10 counterexample: a `content` list whose only element is a dict
tagged `type=="text"` with an empty text value does NOT fall through to
the JSON-dump fallback: the fragment list is non-empty (so the joining
rule fires), the empty fragment is dropped by the `if fragment` filter,
and the join of zero fragments — the empty string — is returned as
content, which is not the indented serialization of the dict. -/
theorem c10_counterexample :
    normalize_tool_result
      (.obj [("content", .arr [.obj [("type", .str "text"), ("text", .str "")]])]) =
      .ok ⟨"", .obj [("content", .arr
        [.obj [("type", .str "text"), ("text", .str "")]])]⟩ ∧
    json_dumps_indent2
      (.obj [("content", .arr [.obj [("type", .str "text"), ("text", .str "")]])]) ≠
      "" := by
  refine ⟨rfl, ?_⟩
  decide

/-- C10 amended: for every dict input whose `content` field is a list
containing no dict element tagged `type=="text"` at all (in particular
`content == []`), the fragment-joining rule does not apply: absent a
`message` field, `normalize_tool_result` returns the indented JSON
serialization of the whole dict as content — never the empty string.
(The original claim's larger class — elements tagged text but with empty
text — is cut down by the counterexample: such elements make the
fragment list non-empty and the join returns the empty string.) -/
theorem c10_amended_no_text_fragments_fall_through
    (o : List (String × Json)) (items : List Json)
    (hc : objLookup o "content" = some (.arr items))
    (hnone : ∀ i ∈ items, isTextFragmentSource i = false)
    (hmsg : objLookup o "message" = none) :
    normalize_tool_result (.obj o) =
      .ok ⟨json_dumps_indent2 (.obj o), .obj o⟩ ∧
    json_dumps_indent2 (.obj o) ≠ "" := by
  have hfilter : items.filter isTextFragmentSource = [] :=
    List.filter_eq_nil_iff.mpr (by intro i hi; simp [hnone i hi])
  constructor
  · simp [normalize_tool_result, hc, hfilter, normObjFallback, hmsg]
  · have hlen : (json_dumps_indent2 (.obj o)).length ≠ 0 := by
      cases o with
      | nil => decide
      | cons kv kvs =>
          have h1 : ("\x7b\n" : String).length = 2 := rfl
          simp only [json_dumps_indent2, dumpsVal, String.length_append, h1]
          omega
    intro h
    rw [h] at hlen
    exact hlen rfl

/-- C10 witness: a dict whose `content` list holds only a non-text
fragment falls through to the indented serialization. -/
theorem c10_witness :
    normalize_tool_result
      (.obj [("content", .arr [.obj [("type", .str "image")]])]) =
      .ok ⟨json_dumps_indent2
            (.obj [("content", .arr [.obj [("type", .str "image")]])]),
          .obj [("content", .arr [.obj [("type", .str "image")]])]⟩ :=
  (c10_amended_no_text_fragments_fall_through
    [("content", .arr [.obj [("type", .str "image")]])]
    [.obj [("type", .str "image")]]
    rfl
    (by
      intro i hi
      rw [List.mem_singleton.mp hi]
      rfl)
    rfl).1

/-- The probe loop returns the first succeeding probe's value when every
earlier probe fails. -/
theorem http_probe_loop_first_success
    (send : String → Json → String → Except String Json) (tool_name : String)
    (pre : List (String × Json × String)) (p : String × Json × String)
    (rest : List (String × Json × String)) (n : NormResult)
    (hpre : ∀ q ∈ pre, ∃ e, http_probe send q = .error e)
    (hp : http_probe send p = .ok n) :
    ∀ last, http_probe_loop send tool_name (pre ++ p :: rest) last = .ok n := by
  induction pre with
  | nil =>
      intro last
      simp [http_probe_loop, hp]
  | cons q qs ih =>
      intro last
      obtain ⟨e, he⟩ := hpre q (by simp)
      have hqs : ∀ x ∈ qs, ∃ e, http_probe send x = .error e :=
        fun x hx => hpre x (by simp [hx])
      simp only [List.cons_append, http_probe_loop, he]
      exact ih hqs (some e)

/-- When every probe fails, the loop raises a message carrying the last
probe's error. -/
theorem http_probe_loop_all_fail
    (send : String → Json → String → Except String Json) (tool_name : String)
    (init : List (String × Json × String)) (q : String × Json × String)
    (e : String)
    (hinit : ∀ x ∈ init, ∃ e2, http_probe send x = .error e2)
    (hq : http_probe send q = .error e) :
    ∀ last, http_probe_loop send tool_name (init ++ [q]) last =
      .error ("Could not call tool \x27" ++ tool_name ++
        "\x27 via HTTP. Last error: " ++ e) := by
  induction init with
  | nil =>
      intro last
      simp [http_probe_loop, hq]
  | cons x xs ih =>
      intro last
      obtain ⟨e2, he2⟩ := hinit x (by simp)
      have hxs : ∀ y ∈ xs, ∃ e2, http_probe send y = .error e2 :=
        fun y hy => hinit y (by simp [hy])
      simp only [List.cons_append, http_probe_loop, he2]
      exact ih hxs (some e2)

/-- C5: for every tool name and argument mapping, the HTTP-shim
`call_tool` probes exactly the fixed ordered endpoint list `call_tool`,
`tools/call`, `mcp/tools/call`, `tools/{name}`, `invoke/{name}`,
`mcp/{name}`; the first probe whose request-and-normalize try block
succeeds short-circuits the remaining probes and its normalized result
is returned; when every probe fails the call raises a failure whose
message carries the last probe's error. -/
theorem c5_http_call_tool_probing
    (send : String → Json → String → Except String Json)
    (tool_name : String) (arguments : Option Json) :
    ((http_call_endpoints tool_name (argsOrEmpty arguments)).map
        (fun p => p.1) =
      ["call_tool", "tools/call", "mcp/tools/call",
       "tools/" ++ tool_name, "invoke/" ++ tool_name,
       "mcp/" ++ tool_name]) ∧
    (∀ (pre : List (String × Json × String)) (p : String × Json × String)
        (rest : List (String × Json × String)) (n : NormResult),
      http_call_endpoints tool_name (argsOrEmpty arguments) =
        pre ++ p :: rest →
      (∀ q ∈ pre, ∃ e, http_probe send q = .error e) →
      http_probe send p = .ok n →
      http_call_tool send tool_name arguments = .ok n) ∧
    (∀ e : String,
      (∀ x ∈ http_call_endpoints tool_name (argsOrEmpty arguments),
        ∃ e2, http_probe send x = .error e2) →
      http_probe send
        ("mcp/" ++ tool_name, argsOrEmpty arguments, "POST") = .error e →
      http_call_tool send tool_name arguments =
        .error ("Could not call tool \x27" ++ tool_name ++
          "\x27 via HTTP. Last error: " ++ e)) := by
  refine ⟨rfl, ?_, ?_⟩
  · intro pre p rest n hsplit hpre hp
    unfold http_call_tool
    rw [hsplit]
    exact http_probe_loop_first_success send tool_name pre p rest n hpre hp none
  · intro e hall hq
    unfold http_call_tool
    have hdecomp : http_call_endpoints tool_name (argsOrEmpty arguments) =
        [("call_tool",
            .obj [("tool_name", .str tool_name),
                  ("arguments", argsOrEmpty arguments)], "POST"),
         ("tools/call",
            .obj [("name", .str tool_name),
                  ("arguments", argsOrEmpty arguments)], "POST"),
         ("mcp/tools/call",
            .obj [("name", .str tool_name),
                  ("arguments", argsOrEmpty arguments)], "POST"),
         ("tools/" ++ tool_name, argsOrEmpty arguments, "POST"),
         ("invoke/" ++ tool_name, argsOrEmpty arguments, "POST")] ++
        [("mcp/" ++ tool_name, argsOrEmpty arguments, "POST")] := rfl
    rw [hdecomp]
    refine http_probe_loop_all_fail send tool_name _ _ e ?_ hq none
    intro x hx
    exact hall x (by rw [hdecomp]; exact List.mem_append_left _ hx)

/-- A concrete HTTP oracle for the C5 witness: the first endpoint shape
404s, every other one answers `{"message": "x"}`. -/
def witnessSend (endpoint : String) (_payload : Json) (_method : String) :
    Except String Json :=
  if endpoint = "call_tool" then .error "404 Not Found"
  else .ok (.obj [("message", .str "x")])

/-- C5 witness: with the oracle above, the second probe (`tools/call`)
short-circuits the rest and its normalized result is returned. -/
theorem c5_witness :
    http_call_tool witnessSend "read_file" none =
      .ok ⟨"x", .obj [("message", .str "x")]⟩ :=
  (c5_http_call_tool_probing witnessSend "read_file" none).2.1
    [("call_tool",
        .obj [("tool_name", .str "read_file"),
              ("arguments", argsOrEmpty none)], "POST")]
    ("tools/call",
        .obj [("name", .str "read_file"),
              ("arguments", argsOrEmpty none)], "POST")
    [("mcp/tools/call",
        .obj [("name", .str "read_file"),
              ("arguments", argsOrEmpty none)], "POST"),
     ("tools/" ++ "read_file", argsOrEmpty none, "POST"),
     ("invoke/" ++ "read_file", argsOrEmpty none, "POST"),
     ("mcp/" ++ "read_file", argsOrEmpty none, "POST")]
    ⟨"x", .obj [("message", .str "x")]⟩
    rfl
    (by
      intro q hq
      rw [List.mem_singleton.mp hq]
      exact ⟨"404 Not Found", rfl⟩)
    rfl

/-!
## Pure characterization of `prepare_tool_arguments` (proof device)
-/

/-- `properties.get("path", {}).get("default")` for a well-formed
properties mapping. -/
def pathDefaultRaw (props : List (String × Json)) : Json :=
  match (objLookup props "path").getD (.obj []) with
  | .obj po => (objLookup po "default").getD .null
  | _ => .null

/-- The value the `path` rule fills in: the schema default when truthy,
otherwise `DEFAULT_FILE_PATH`. -/
def pathDefaultValue (props : List (String × Json)) : Json :=
  if pyTruthy (pathDefaultRaw props) then pathDefaultRaw props
  else .str DEFAULT_FILE_PATH

/-- The arguments after the `path` rule of `prepare_tool_arguments`. -/
def pathFilledArgs (props planned : List (String × Json)) :
    List (String × Json) :=
  if objHasKey props "path" && !objHasKey planned "path" then
    objSet planned "path" (pathDefaultValue props)
  else planned

/-- `properties.get(param, {}).get("default")` (pure, for well-formed
properties). -/
def dvOf (props : List (String × Json)) (param : String) : Json :=
  match (objLookup props param).getD (.obj []) with
  | .obj po => (objLookup po "default").getD .null
  | _ => .null

/-- Pure twin of `fillRequiredLoop` for well-formed properties. -/
def defaultedArgs (props : List (String × Json)) :
    List String → List (String × Json) → List (String × Json)
  | [], args => args
  | param :: rest, args =>
      if argMissing args param then
        match dvOf props param with
        | .null => defaultedArgs props rest args
        | v => defaultedArgs props rest (objSet args param v)
      else defaultedArgs props rest args

/-- Pure outcome of `prepare_tool_arguments` on a well-formed
descriptor: path fill, defaulting pass, then the missing check. -/
def resolveOutcome (props : List (String × Json)) (required : List String)
    (planned : List (String × Json)) : Except String (List (String × Json)) :=
  let final := defaultedArgs props required (pathFilledArgs props planned)
  let missing := required.filter (fun p => argMissing final p)
  if missing.isEmpty then .ok final
  else .error ("Missing required arguments: " ++ joinSep ", " missing)

/-- Looking up a key that was just set yields the new value. -/
theorem objLookup_objSet_self (o : List (String × Json)) (k : String)
    (v : Json) : objLookup (objSet o k v) k = some v := by
  induction o with
  | nil => simp [objSet, objLookup]
  | cons kv rest ih =>
      obtain ⟨k2, w⟩ := kv
      by_cases h : k2 = k
      · simp [objSet, objLookup, h]
      · simp [objSet, objLookup, h, ih]

/-- Setting one key leaves every other key's lookup unchanged. -/
theorem objLookup_objSet_ne (o : List (String × Json)) (k k2 : String)
    (v : Json) (h : k2 ≠ k) :
    objLookup (objSet o k2 v) k = objLookup o k := by
  induction o with
  | nil => simp [objSet, objLookup, h]
  | cons kv rest ih =>
      obtain ⟨k3, w⟩ := kv
      by_cases h3 : k3 = k2
      · subst h3
        simp [objSet, objLookup, h]
      · simp [objSet, objLookup, h3, ih]

/-- A successful lookup names a binding of the list. -/
theorem objLookup_mem (o : List (String × Json)) (k : String) (v : Json)
    (h : objLookup o k = some v) : (k, v) ∈ o := by
  induction o with
  | nil => simp [objLookup] at h
  | cons kv rest ih =>
      obtain ⟨k2, w⟩ := kv
      by_cases h2 : k2 = k
      · subst h2
        simp [objLookup] at h
        simp [h]
      · simp [objLookup, h2] at h
        exact List.mem_cons_of_mem _ (ih h)

/-- A truthy value is never the missing-or-empty sentinel. -/
theorem isMissingVal_of_truthy (v : Json) (h : pyTruthy v = true) :
    isMissingVal v = false := by
  cases v <;> simp_all [pyTruthy, isMissingVal]

/-- The filled path value is always truthy. -/
theorem pathDefaultValue_truthy (props : List (String × Json)) :
    pyTruthy (pathDefaultValue props) = true := by
  unfold pathDefaultValue
  by_cases h : pyTruthy (pathDefaultRaw props) = true
  · rw [if_pos h]
    exact h
  · rw [if_neg h]
    rfl

/-- Under well-formed properties the monadic fill loop computes its pure
twin. -/
theorem fillRequiredLoop_eq_pure (props : List (String × Json))
    (hwf : ∀ kv ∈ props, ∃ po, kv.2 = Json.obj po) :
    ∀ (params : List String) (args : List (String × Json)),
      fillRequiredLoop props params args = .ok (defaultedArgs props params args) := by
  intro params
  induction params with
  | nil => intro args; rfl
  | cons param rest ih =>
      intro args
      have hprop : dictGetAttrD ((objLookup props param).getD (.obj []))
          "default" .null = .ok (dvOf props param) := by
        rcases hl : objLookup props param with _ | v
        · simp [dictGetAttrD, dvOf, hl]
        · obtain ⟨po, hpo⟩ := hwf (param, v) (objLookup_mem props param v hl)
          simp only at hpo
          subst hpo
          simp [dictGetAttrD, dvOf, hl]
      by_cases hmiss : argMissing args param
      · simp only [fillRequiredLoop, defaultedArgs, hmiss, if_true]
        rw [hprop]
        simp only [Bind.bind, Except.bind]
        rcases hdv : dvOf props param with _ | b | n | s | items | fields <;>
          simp [hdv, ih]
      · simp [fillRequiredLoop, defaultedArgs, hmiss, ih]

/-- The required list built by `mkToolDescriptor` round-trips. -/
theorem asStrListAux_map_str (l : List String) :
    asStrListAux (l.map Json.str) = .ok l := by
  induction l with
  | nil => rfl
  | cons s rest ih => simp [asStrListAux, ih, Bind.bind, Except.bind]

/-- The defaulting pass never disturbs a parameter that is already
bound to a non-missing value. -/
theorem defaultedArgs_preserves (props : List (String × Json))
    (p : String) (v : Json) (hv : isMissingVal v = false) :
    ∀ (params : List String) (args : List (String × Json)),
      objLookup args p = some v →
      objLookup (defaultedArgs props params args) p = some v := by
  intro params
  induction params with
  | nil => intro args h; exact h
  | cons q rest ih =>
      intro args h
      by_cases hqp : q = p
      · subst hqp
        have hmiss : argMissing args q = false := by
          simp [argMissing, h, hv]
        simp [defaultedArgs, hmiss, ih args h]
      · by_cases hmiss : argMissing args q
        · simp only [defaultedArgs, hmiss, if_true]
          rcases hdv : dvOf props q with _ | b | n | s | items | fields
          · exact ih args h
          all_goals
            refine ih _ ?_
            rw [objLookup_objSet_ne args p q _ hqp]
            exact h
        · simp [defaultedArgs, hmiss, ih args h]

/-- Once a parameter holds exactly its schema default, the defaulting
pass keeps it there (refills rewrite the same value). -/
theorem defaultedArgs_stable (props : List (String × Json))
    (p : String) (d : Json) (hd : dvOf props p = d) :
    ∀ (params : List String) (args : List (String × Json)),
      objLookup args p = some d →
      objLookup (defaultedArgs props params args) p = some d := by
  intro params
  induction params with
  | nil => intro args h; exact h
  | cons q rest ih =>
      intro args h
      by_cases hqp : q = p
      · subst hqp
        by_cases hmiss : argMissing args q
        · simp only [defaultedArgs, hmiss, if_true]
          rcases hdv : dvOf props q with _ | b | n | s | items | fields
          · exact ih args h
          all_goals
            rw [hdv] at hd
            refine ih _ ?_
            rw [objLookup_objSet_self args q _]
            rw [hd]
        · simp [defaultedArgs, hmiss, ih args h]
      · by_cases hmiss : argMissing args q
        · simp only [defaultedArgs, hmiss, if_true]
          rcases hdv : dvOf props q with _ | b | n | s | items | fields
          · exact ih args h
          all_goals
            refine ih _ ?_
            rw [objLookup_objSet_ne args p q _ hqp]
            exact h
        · simp [defaultedArgs, hmiss, ih args h]

/-- A required parameter that is missing-or-empty and has a non-null
schema default ends up bound to that default. -/
theorem defaultedArgs_fills (props : List (String × Json))
    (p : String) (d : Json) (hd : dvOf props p = d) (hnn : d ≠ .null) :
    ∀ (params : List String) (args : List (String × Json)),
      p ∈ params → argMissing args p = true →
      objLookup (defaultedArgs props params args) p = some d := by
  intro params
  induction params with
  | nil => intro args h; simp at h
  | cons q rest ih =>
      intro args hmem hmiss
      by_cases hqp : q = p
      · subst hqp
        simp only [defaultedArgs, hmiss, if_true]
        rw [hd]
        rcases d with _ | b | n | s | items | fields
        · exact absurd rfl hnn
        all_goals
          refine defaultedArgs_stable props q _ hd rest _ ?_
          exact objLookup_objSet_self args q _
      · have hmem2 : p ∈ rest := by
          rcases List.mem_cons.mp hmem with h | h
          · exact absurd h.symm hqp
          · exact h
        by_cases hmissq : argMissing args q
        · simp only [defaultedArgs, hmissq, if_true]
          rcases hdv : dvOf props q with _ | b | n | s | items | fields
          · exact ih _ hmem2 hmiss
          all_goals
            refine ih _ hmem2 ?_
            unfold argMissing at hmiss ⊢
            rw [objLookup_objSet_ne args p q _ hqp]
            exact hmiss
        · simp only [defaultedArgs, hmissq, if_false, Bool.false_eq_true,
            if_neg]
          exact ih _ hmem2 hmiss

/-- The `path` rule computes the pure path fill on a well-formed
properties mapping. -/
theorem pathFillStep_eq (props planned : List (String × Json))
    (hwf : ∀ kv ∈ props, ∃ po, kv.2 = Json.obj po) :
    pathFillStep props ((objLookup props "path").getD (.obj [])) planned =
      .ok (pathFilledArgs props planned) := by
  unfold pathFillStep pathFilledArgs
  by_cases hcond : (objHasKey props "path" && !objHasKey planned "path") = true
  · rw [if_pos hcond, if_pos hcond]
    have hobj : ∃ po, (objLookup props "path").getD (.obj []) = .obj po := by
      rcases hl : objLookup props "path" with _ | v
      · exact ⟨[], rfl⟩
      · obtain ⟨po, hpo⟩ := hwf ("path", v) (objLookup_mem _ _ _ hl)
        simp only at hpo
        exact ⟨po, by simp [hpo]⟩
    obtain ⟨po, hpo⟩ := hobj
    have hraw : pathDefaultRaw props = (objLookup po "default").getD .null := by
      unfold pathDefaultRaw
      rw [hpo]
    have hd : dictGetAttrD ((objLookup props "path").getD (.obj []))
        "default" .null = .ok (pathDefaultRaw props) := by
      rw [hpo, hraw]
      rfl
    rw [hd]
    simp only [Bind.bind, Except.bind]
    rw [show (if pyTruthy (pathDefaultRaw props) then pathDefaultRaw props
        else Json.str DEFAULT_FILE_PATH) = pathDefaultValue props from rfl]
    rw [if_pos (pathDefaultValue_truthy props)]
  · rw [if_neg hcond, if_neg hcond]

/-- On a well-formed descriptor, `prepare_tool_arguments` computes the
pure `resolveOutcome`. -/
theorem prepare_eq_resolveOutcome (name desc : String)
    (props : List (String × Json)) (required : List String)
    (planned : List (String × Json))
    (hwf : ∀ kv ∈ props, ∃ po, kv.2 = Json.obj po) :
    prepare_tool_arguments (some (mkToolDescriptor name desc props required))
      planned = resolveOutcome props required planned := by
  have hstep : prepare_tool_arguments
      (some (mkToolDescriptor name desc props required)) planned =
      (do
        let args ← pathFillStep props
          ((objLookup props "path").getD (.obj [])) planned
        let required2 ← asStrList (.arr (required.map Json.str))
        let args2 ← fillRequiredLoop props required2 args
        missingCheck required2 args2) := rfl
  rw [hstep, pathFillStep_eq props planned hwf]
  simp only [asStrList, asStrListAux_map_str, Bind.bind, Except.bind]
  rw [fillRequiredLoop_eq_pure props hwf required (pathFilledArgs props planned)]
  rfl

/-- C7: the Argument Resolver fills a schema-declared `path` parameter
absent from the arguments with the schema default or else `sample.txt`;
fills every other missing-or-empty required parameter from its non-null
schema default; raises `Missing required arguments: ...` naming every
required parameter still missing or empty after defaulting; and the two
specified concrete cases hold. -/
theorem c7_argument_resolver (name desc : String)
    (props : List (String × Json)) (required : List String)
    (planned : List (String × Json))
    (hwf : ∀ kv ∈ props, ∃ po, kv.2 = Json.obj po) :
    (prepare_tool_arguments
      (some (mkToolDescriptor "read_file" ""
        [("path", .obj [("default", .str "sample.txt")])] ["path"])) [] =
      .ok [("path", .str "sample.txt")]) ∧
    (prepare_tool_arguments
      (some (mkToolDescriptor "convert" "" [("format", .obj [])] ["format"]))
      [] = .error "Missing required arguments: format") ∧
    (prepare_tool_arguments
      (some (mkToolDescriptor name desc props required)) planned =
      resolveOutcome props required planned) ∧
    (objHasKey props "path" = true → objHasKey planned "path" = false →
      ∀ out, prepare_tool_arguments
          (some (mkToolDescriptor name desc props required)) planned =
          .ok out →
        objLookup out "path" = some (pathDefaultValue props)) ∧
    (∀ p ∈ required, p ≠ "path" → argMissing planned p = true →
      ∀ (po : List (String × Json)) (d : Json),
        objLookup props p = some (.obj po) →
        objLookup po "default" = some d → d ≠ .null →
        ∀ out, prepare_tool_arguments
            (some (mkToolDescriptor name desc props required)) planned =
            .ok out →
          objLookup out p = some d) := by
  have heq := prepare_eq_resolveOutcome name desc props required planned hwf
  have hout : ∀ out, prepare_tool_arguments
      (some (mkToolDescriptor name desc props required)) planned = .ok out →
      out = defaultedArgs props required (pathFilledArgs props planned) := by
    intro out h
    rw [heq] at h
    unfold resolveOutcome at h
    by_cases hmiss : (required.filter (fun p =>
        argMissing (defaultedArgs props required
          (pathFilledArgs props planned)) p)).isEmpty
    · rw [if_pos hmiss] at h
      simp only [Except.ok.injEq] at h
      exact h.symm
    · rw [if_neg hmiss] at h
      simp at h
  refine ⟨rfl, rfl, heq, ?_, ?_⟩
  · intro hprops hplanned out h
    rw [hout out h]
    have hfill : pathFilledArgs props planned =
        objSet planned "path" (pathDefaultValue props) := by
      unfold pathFilledArgs
      rw [if_pos (by rw [hprops, hplanned]; rfl)]
    rw [hfill]
    exact defaultedArgs_preserves props "path" (pathDefaultValue props)
      (isMissingVal_of_truthy _ (pathDefaultValue_truthy props)) required _
      (objLookup_objSet_self planned "path" _)
  · intro p hp hppath hmiss po d hpo hdef hnn out h
    rw [hout out h]
    have hdv : dvOf props p = d := by
      unfold dvOf
      rw [hpo]
      simp [hdef]
    have hmiss2 : argMissing (pathFilledArgs props planned) p = true := by
      unfold pathFilledArgs
      by_cases hcond : (objHasKey props "path" && !objHasKey planned "path") = true
      · rw [if_pos hcond]
        unfold argMissing at hmiss ⊢
        rw [objLookup_objSet_ne planned p "path" _ (Ne.symm hppath)]
        exact hmiss
      · rw [if_neg hcond]
        exact hmiss
    exact defaultedArgs_fills props p d hdv hnn required _ hp hmiss2

/-- C7 witness: the general characterization applied to the specified
concrete schema `{properties: {path: {default: "sample.txt"}},
required: ["path"]}` with empty planner arguments. -/
theorem c7_witness :
    prepare_tool_arguments
      (some (mkToolDescriptor "read_file" ""
        [("path", .obj [("default", .str "sample.txt")])] ["path"])) [] =
      resolveOutcome [("path", .obj [("default", .str "sample.txt")])]
        ["path"] [] :=
  (c7_argument_resolver "read_file" ""
    [("path", .obj [("default", .str "sample.txt")])] ["path"] []
    (by
      intro kv hkv
      rw [List.mem_singleton.mp hkv]
      exact ⟨[("default", .str "sample.txt")], rfl⟩)).2.2.1

/-!
## Characterization of the planner post-processing (proof device)
-/

/-- The proposed name after validation against the catalog (discarded
when unknown). -/
def planValidatedName (pd : List (String × Json))
    (tools : List (List (String × Json))) : Option String :=
  match planProposedName pd with
  | some t => if nameInSet t (availableNames tools) then some t else none
  | none => none

/-- The note the validation stage appends to the reasoning. -/
def discardNoteOf (pd : List (String × Json))
    (tools : List (List (String × Json))) : String :=
  match planProposedName pd with
  | some t =>
      if nameInSet t (availableNames tools) then "" else noteToolNotAvailable t
  | none => ""

/-- The note the required-tool stage appends, as a function of the
validated proposal. -/
def noteForRequired (tn1 : Option String) (names : List Json) (r : String) :
    String :=
  if nameInSet r names then
    match tn1 with
    | some t => if t == r then "" else noteOverriding t r
    | none => noteUsingRequired r
  else noteRequiredNotAvailable r

/-- The note the required-tool stage appends to the reasoning. -/
def requiredNoteOf (pd : List (String × Json))
    (tools : List (List (String × Json))) (r : String) : String :=
  noteForRequired (planValidatedName pd tools) (availableNames tools) r

/-- `plan_data.get("reasoning", "")` as a string (for plans whose
reasoning, when present, is a string). -/
def origReasoning (pd : List (String × Json)) : String :=
  match objLookup pd "reasoning" with
  | some (.str s) => s
  | _ => ""

/-- Looking up across an append: the left list wins. -/
theorem objLookup_append (o1 o2 : List (String × Json)) (k : String) :
    objLookup (o1 ++ o2) k =
      (match objLookup o1 k with
       | some v => some v
       | none => objLookup o2 k) := by
  induction o1 with
  | nil => simp [objLookup]
  | cons kv rest ih =>
      obtain ⟨k2, w⟩ := kv
      by_cases h : k2 = k
      · simp [objLookup, h]
      · simp [objLookup, h, ih]

/-- A string-or-absent reasoning reads back as `origReasoning`. -/
theorem reasoning_getD_eq (pd : List (String × Json))
    (hwf : objLookup pd "reasoning" = none ∨
      ∃ s, objLookup pd "reasoning" = some (.str s)) :
    (objLookup pd "reasoning").getD (.str "") = .str (origReasoning pd) := by
  rcases hwf with h | ⟨s, h⟩ <;> simp [h, origReasoning]

/-- Appending a note to a string-or-absent reasoning succeeds, extends
the reasoning by exactly the note, and leaves every other key alone. -/
theorem appendReasoning_spec (pd : List (String × Json)) (note : String)
    (hwf : objLookup pd "reasoning" = none ∨
      ∃ s, objLookup pd "reasoning" = some (.str s)) :
    ∃ pd2, appendReasoning pd note = .ok pd2 ∧
      objLookup pd2 "reasoning" = some (.str (origReasoning pd ++ note)) ∧
      (∀ k, k ≠ "reasoning" → objLookup pd2 k = objLookup pd k) := by
  have hsd : objLookup (setdefaultReasoning pd) "reasoning" =
      some (.str (origReasoning pd)) := by
    unfold setdefaultReasoning
    by_cases hh : objHasKey pd "reasoning" = true
    · rw [if_pos hh]
      rcases hwf with h | ⟨s, h⟩
      · rw [objHasKey, h] at hh
        simp at hh
      · rw [h]
        unfold origReasoning
        rw [h]
    · rw [if_neg hh]
      rw [objLookup_append]
      rcases hwf with h | ⟨s, h⟩
      · rw [h]
        unfold origReasoning
        rw [h]
        simp [objLookup]
      · rw [objHasKey, h] at hh
        simp at hh
  have hsd2 : ∀ k, k ≠ "reasoning" →
      objLookup (setdefaultReasoning pd) k = objLookup pd k := by
    intro k hk
    unfold setdefaultReasoning
    by_cases hh : objHasKey pd "reasoning" = true
    · rw [if_pos hh]
    · rw [if_neg hh]
      rw [objLookup_append]
      have hne : ¬ ("reasoning" = k) := fun h => hk h.symm
      rcases hl : objLookup pd k with _ | v
      · simp [objLookup, hne]
      · simp
  refine ⟨objSet (setdefaultReasoning pd) "reasoning"
    (.str (origReasoning pd ++ note)), ?_, ?_, ?_⟩
  · simp only [appendReasoning]
    rw [hsd]
  · exact objLookup_objSet_self _ _ _
  · intro k hk
    rw [objLookup_objSet_ne _ _ _ _ (Ne.symm hk)]
    exact hsd2 k hk

/-- Appending the empty string is the identity. -/
theorem strAppendEmpty (s : String) : s ++ "" = s := by
  obtain ⟨l⟩ := s
  show String.mk (l ++ []) = String.mk l
  rw [List.append_nil]

/-- A string reasoning field reads back verbatim. -/
theorem origReasoning_of_lookup (pd : List (String × Json)) (s : String)
    (h : objLookup pd "reasoning" = some (.str s)) : origReasoning pd = s := by
  unfold origReasoning
  rw [h]

/-- The validation stage: returns the validated proposal, extends the
reasoning by exactly the discard note, and touches no other key. -/
theorem planStage1_spec (pd : List (String × Json))
    (tools : List (List (String × Json)))
    (hwf : objLookup pd "reasoning" = none ∨
      ∃ s, objLookup pd "reasoning" = some (.str s)) :
    ∃ pd1, planStage1 pd (availableNames tools) =
        .ok (pd1, planValidatedName pd tools) ∧
      (objLookup pd1 "reasoning" = none ∨
        ∃ s, objLookup pd1 "reasoning" = some (.str s)) ∧
      origReasoning pd1 = origReasoning pd ++ discardNoteOf pd tools ∧
      (∀ k, k ≠ "reasoning" → objLookup pd1 k = objLookup pd k) := by
  rcases hp : planProposedName pd with _ | t
  · refine ⟨pd, ?_, hwf, ?_, fun k _ => rfl⟩
    · simp [planStage1, hp, planValidatedName]
    · simp [discardNoteOf, hp, strAppendEmpty]
  · by_cases hn : nameInSet t (availableNames tools) = true
    · refine ⟨pd, ?_, hwf, ?_, fun k _ => rfl⟩
      · simp [planStage1, hp, hn, planValidatedName]
      · simp [discardNoteOf, hp, hn, strAppendEmpty]
    · obtain ⟨pd2, happ, hlook, hoth⟩ :=
        appendReasoning_spec pd (noteToolNotAvailable t) hwf
      refine ⟨pd2, ?_, Or.inr ⟨_, hlook⟩, ?_, hoth⟩
      · simp [planStage1, hp, hn, happ, Bind.bind, Except.bind,
          planValidatedName]
      · rw [origReasoning_of_lookup pd2 _ hlook]
        simp [discardNoteOf, hp, hn]

/-- The required-tool stage: forces the selection to the required name
exactly when it is in the catalog, extends the reasoning by exactly the
required note, and touches no other key. -/
theorem planStage2_spec (pd1 : List (String × Json))
    (tools : List (List (String × Json))) (r : String) (tn1 : Option String)
    (hr : r ≠ "")
    (hwf1 : objLookup pd1 "reasoning" = none ∨
      ∃ s, objLookup pd1 "reasoning" = some (.str s)) :
    ∃ pd2, planStage2 pd1 tn1 (availableNames tools) (some r) =
        .ok (pd2,
          if nameInSet r (availableNames tools) then some r else none) ∧
      (objLookup pd2 "reasoning" = none ∨
        ∃ s, objLookup pd2 "reasoning" = some (.str s)) ∧
      origReasoning pd2 =
        origReasoning pd1 ++ noteForRequired tn1 (availableNames tools) r ∧
      (∀ k, k ≠ "reasoning" → objLookup pd2 k = objLookup pd1 k) := by
  have hre : (r == "") = false := by
    simp [hr]
  by_cases hrn : nameInSet r (availableNames tools) = true
  · rcases tn1 with _ | t
    · obtain ⟨pd2, happ, hlook, hoth⟩ :=
        appendReasoning_spec pd1 (noteUsingRequired r) hwf1
      refine ⟨pd2, ?_, Or.inr ⟨_, hlook⟩, ?_, hoth⟩
      · simp [planStage2, hre, hrn, happ, Bind.bind, Except.bind]
      · rw [origReasoning_of_lookup pd2 _ hlook]
        simp [noteForRequired, hrn]
    · by_cases ht : (t == r) = true
      · refine ⟨pd1, ?_, hwf1, ?_, fun k _ => rfl⟩
        · simp [planStage2, hre, hrn, ht]
        · simp [noteForRequired, hrn, ht, strAppendEmpty]
      · obtain ⟨pd2, happ, hlook, hoth⟩ :=
          appendReasoning_spec pd1 (noteOverriding t r) hwf1
        refine ⟨pd2, ?_, Or.inr ⟨_, hlook⟩, ?_, hoth⟩
        · simp [planStage2, hre, hrn, ht, happ, Bind.bind, Except.bind]
        · rw [origReasoning_of_lookup pd2 _ hlook]
          simp [noteForRequired, hrn, ht]
  · obtain ⟨pd2, happ, hlook, hoth⟩ :=
      appendReasoning_spec pd1 (noteRequiredNotAvailable r) hwf1
    refine ⟨pd2, ?_, Or.inr ⟨_, hlook⟩, ?_, hoth⟩
    · simp [planStage2, hre, hrn, happ, Bind.bind, Except.bind]
    · rw [origReasoning_of_lookup pd2 _ hlook]
      simp [noteForRequired, hrn]

/-- The final write-back binds `tool_name` to the selected value. -/
theorem planFinalize_tool_name (pd : List (String × Json))
    (tn2 : Option String) :
    objLookup (planFinalize pd tn2) "tool_name" =
      some (match tn2 with | some t => Json.str t | none => Json.null) := by
  simp only [planFinalize]
  rw [objLookup_objSet_ne _ _ _ _
    (by decide : ("reasoning" : String) ≠ "tool_name")]
  rw [objLookup_objSet_ne _ _ _ _
    (by decide : ("arguments" : String) ≠ "tool_name")]
  exact objLookup_objSet_self _ _ _

/-- The final write-back binds `reasoning` to the re-read reasoning. -/
theorem planFinalize_reasoning (pd : List (String × Json))
    (tn2 : Option String) :
    objLookup (planFinalize pd tn2) "reasoning" =
      some ((objLookup pd "reasoning").getD (.str "")) := by
  simp only [planFinalize]
  exact objLookup_objSet_self _ _ _

/-- C8 counterexample: when the planner already proposed exactly the
required tool (here `"t"`, present in the catalog), the plan keeps
`tool_name = "t"` but the reasoning is returned verbatim — no
override/usage note is appended, contradicting the claim that the
reasoning is always annotated in the in-catalog case. -/
theorem c8_counterexample :
    plan_post
      [("tool_name", .str "t"), ("arguments", .obj []),
       ("reasoning", .str "r")]
      [[("name", .str "t")]] (some "t") =
      .ok [("tool_name", .str "t"), ("arguments", .obj []),
           ("reasoning", .str "r")] ∧
    "r" ≠ "r" ++ noteUsingRequired "t" ∧
    "r" ≠ "r" ++ noteOverriding "t" "t" ∧
    "r" ≠ "r" ++ noteToolNotAvailable "t" := by
  refine ⟨rfl, ?_, ?_, ?_⟩ <;> decide

/-- C8 amended: with a required tool name `r` given (non-empty) and a
plan whose reasoning, when present, is a string: if `r` is in the
catalog the returned plan's `tool_name` equals `r` regardless of the
proposal; if not, `tool_name` is null.  The reasoning is extended by
exactly the validation note (when the proposal was unknown) and the
required-tool note — an overriding note when the validated proposal
differs from `r`, a usage note when there is no validated proposal, a
not-available note when `r` is not in the catalog, and no note at all
when the planner already proposed `r`. -/
theorem c8_amended_required_override (pd : List (String × Json))
    (tools : List (List (String × Json))) (r : String) (hr : r ≠ "")
    (hwf : objLookup pd "reasoning" = none ∨
      ∃ s, objLookup pd "reasoning" = some (.str s)) :
    ∃ out, plan_post pd tools (some r) = .ok out ∧
      objLookup out "tool_name" =
        some (if nameInSet r (availableNames tools) then Json.str r
              else Json.null) ∧
      objLookup out "reasoning" =
        some (.str (origReasoning pd ++ discardNoteOf pd tools ++
          requiredNoteOf pd tools r)) := by
  obtain ⟨pd1, h1, hwf1, horig1, hoth1⟩ := planStage1_spec pd tools hwf
  obtain ⟨pd2, h2, hwf2, horig2, hoth2⟩ :=
    planStage2_spec pd1 tools r (planValidatedName pd tools) hr hwf1
  refine ⟨planFinalize pd2
    (if nameInSet r (availableNames tools) then some r else none),
    ?_, ?_, ?_⟩
  · simp only [plan_post]
    rw [h1]
    simp only [Bind.bind, Except.bind]
    rw [h2]
  · rw [planFinalize_tool_name]
    by_cases hrn : nameInSet r (availableNames tools) = true <;> simp [hrn]
  · rw [planFinalize_reasoning, reasoning_getD_eq pd2 hwf2, horig2, horig1]
    rfl

/-- C8 witness: planner proposes `x`, the required tool
`read_file_mcp` is in the catalog; the amended theorem yields a plan
selecting `read_file_mcp` with an annotated reasoning. -/
theorem c8_witness :
    ∃ out, plan_post [("tool_name", .str "x"), ("reasoning", .str "base")]
        [[("name", .str "read_file_mcp")], [("name", .str "x")]]
        (some "read_file_mcp") = .ok out ∧
      objLookup out "tool_name" =
        some (if nameInSet "read_file_mcp"
            (availableNames
              [[("name", .str "read_file_mcp")], [("name", .str "x")]])
          then Json.str "read_file_mcp" else Json.null) ∧
      objLookup out "reasoning" =
        some (.str (origReasoning
            [("tool_name", .str "x"), ("reasoning", .str "base")] ++
          discardNoteOf [("tool_name", .str "x"), ("reasoning", .str "base")]
            [[("name", .str "read_file_mcp")], [("name", .str "x")]] ++
          requiredNoteOf [("tool_name", .str "x"), ("reasoning", .str "base")]
            [[("name", .str "read_file_mcp")], [("name", .str "x")]]
            "read_file_mcp")) :=
  c8_amended_required_override
    [("tool_name", .str "x"), ("reasoning", .str "base")]
    [[("name", .str "read_file_mcp")], [("name", .str "x")]]
    "read_file_mcp" (by decide) (Or.inr ⟨"base", rfl⟩)
